import Mathlib

/-!
Verification of the read-receipt subsystem of techmonpiano/mattermost-server.

Shallow embedding of:
  * the data model (`server/public/model`, file `post_read_receipts.go` of the
    model package: `PostReadReceipt`, `PostReadReceiptInfo`,
    `PostReadReceiptSummary`, `ReadReceiptAuditLog`, batch types, `IsValid`,
    `PreSave`),
  * the SQL store (`channels/store/sqlstore/post_read_receipt_store.go`),
    with the `PostReadReceipts` table modelled as a list of rows and the SQL
    `INSERT ... ON CONFLICT` statements modelled as keyed upserts,
  * the service layer (`channels/app/post_read_receipts.go`).

Timestamps (Go `int64`, epoch milliseconds) are modelled as `Int`; Go `int`
counters as `Int`.  `model.GetMillis()` and `model.NewId()` are modelled by
`now` / `newId` values threaded through an environment.  The surrounding
database tables and collaborator resolvers (posts, channels, channel members,
user preferences) are modelled as fields of `Env`.  Logging, websocket
publication and the goroutine wrapper of the asynchronous summary update are
side effects outside the store and are not modelled; the body of the summary
update goroutine is modelled as a synchronous store transformer.
-/

namespace MMRR

/-! ## Data model (server/public/model) -/

/-- `model.PostReadReceipt`. -/
structure PostReadReceipt where
  postId : String
  userId : String
  channelId : String
  readAt : Int
  createAt : Int
  deviceId : String
  deviceType : String
  sessionId : String
deriving DecidableEq

/-- `model.PostReadReceiptInfo`. -/
structure PostReadReceiptInfo where
  postId : String
  channelId : String
  readReceipts : List PostReadReceipt
  unreadUsers : List String
  totalUsers : Int
  readCount : Int
  lastRead : Int
  firstRead : Int
  partiallyRead : Bool
  allRead : Bool
deriving DecidableEq

/-- `model.PostReadReceiptSummary`. -/
structure PostReadReceiptSummary where
  postId : String
  channelId : String
  readCount : Int
  totalRecipients : Int
  lastUpdated : Int
  firstReadAt : Int
  lastReadAt : Int
deriving DecidableEq

/-- `model.ReadReceiptAuditLog`; the opaque `map[string]interface{}` metadata
is modelled as an association list of strings (the code only ever stores
string values in it). -/
structure ReadReceiptAuditLog where
  id : String
  userId : String
  postId : String
  action : String
  metadata : List (String × String)
  createAt : Int
deriving DecidableEq

/-- `model.PostReadReceiptBatch`. -/
structure PostReadReceiptBatch where
  postIds : List String
  userId : String
  channelId : String
  readAt : Int
  deviceId : String
deriving DecidableEq

/-- `model.ReadReceiptBatchRequest`. -/
structure ReadReceiptBatchRequest where
  postIds : List String
  channelId : String
  readAt : Int
  deviceId : String
deriving DecidableEq

/-- `model.AppError`, reduced to the fields the embedded code constructs:
the `where` location, the i18n message id and the HTTP status code. -/
structure AppError where
  location : String
  id : String
  statusCode : Nat
deriving DecidableEq

def DeviceTypeDesktop : String := "desktop"

def DeviceTypeMobile : String := "mobile"

def DeviceTypeWeb : String := "web"

def DeviceTypeUnknown : String := "unknown"

def ReadReceiptActionPrivacyView : String := "privacy_view"

/-- Modelled from the spec: the receipt-mode enumeration (`enabled/disabled`,
§3 and §4.4 step 3); the constant `model.ReadReceiptModeDisabled` is declared
outside the provided sources. -/
def ReadReceiptModeDisabled : String := "disabled"

/-- Modelled from the spec: the visibility enumeration (`ShowAll`, §4.2); the
constant `model.ReadReceiptVisibilityAll` is declared outside the provided
sources. -/
def ReadReceiptVisibilityAll : String := "all"

/-- Modelled from the spec: the visibility enumeration (`ShowNone`, §4.2); the
constant `model.ReadReceiptVisibilityNone` is declared outside the provided
sources. -/
def ReadReceiptVisibilityNone : String := "none"

/-- Modelled from the spec: the preference category for read receipts (§6
preference resolver); the constant `model.PreferenceCategoryReadReceipts` is
declared outside the provided sources. -/
def PreferenceCategoryReadReceipts : String := "read_receipts"

/-- The list of valid device types from `PostReadReceipt.IsValid`. -/
def validDeviceTypes : List String :=
  [DeviceTypeDesktop, DeviceTypeMobile, DeviceTypeWeb, DeviceTypeUnknown]

/-- `model.PostReadReceipt.IsValid`.  `model.IsValidId` is declared outside
the provided sources, so the id validator is a parameter of the embedding.
Returns `some err` exactly when the Go method returns a non-nil `*AppError`. -/
def PostReadReceipt.IsValid (isValidId : String → Bool) (r : PostReadReceipt) :
    Option AppError :=
  if !isValidId r.postId then
    some ⟨"PostReadReceipt.IsValid", "model.post_read_receipt.is_valid.post_id.app_error", 400⟩
  else if !isValidId r.userId then
    some ⟨"PostReadReceipt.IsValid", "model.post_read_receipt.is_valid.user_id.app_error", 400⟩
  else if !isValidId r.channelId then
    some ⟨"PostReadReceipt.IsValid", "model.post_read_receipt.is_valid.channel_id.app_error", 400⟩
  else if r.readAt = 0 then
    some ⟨"PostReadReceipt.IsValid", "model.post_read_receipt.is_valid.read_at.app_error", 400⟩
  else if r.createAt = 0 then
    some ⟨"PostReadReceipt.IsValid", "model.post_read_receipt.is_valid.create_at.app_error", 400⟩
  else if r.deviceType ≠ "" && !(validDeviceTypes.contains r.deviceType) then
    some ⟨"PostReadReceipt.IsValid", "model.post_read_receipt.is_valid.device_type.app_error", 400⟩
  else
    none

/-- `model.PostReadReceipt.PreSave`: fill `CreateAt`/`ReadAt` with the current
millis when zero and default the device type.  The Go method performs three
sequential in-place updates of independent fields; they are rendered as one
record update. -/
def PostReadReceipt.PreSave (now : Int) (r : PostReadReceipt) : PostReadReceipt :=
  { r with
    createAt := if r.createAt = 0 then now else r.createAt,
    readAt := if r.readAt = 0 then now else r.readAt,
    deviceType := if r.deviceType = "" then DeviceTypeUnknown else r.deviceType }

/-! ## Surrounding data (collaborator resolvers and shared DB tables) -/

/-- `model.ChannelType` (the four values used by the read-receipt code). -/
inductive ChannelType where
  | direct
  | group
  | openChannel
  | privateChannel
deriving DecidableEq

structure Channel where
  id : String
  type : ChannelType
deriving DecidableEq

structure Post where
  id : String
  channelId : String
  userId : String
  createAt : Int
deriving DecidableEq

/-- A row of the `ChannelMembers` table (the fields the read-receipt code
reads). -/
structure ChannelMember where
  channelId : String
  userId : String
  lastViewedAt : Int
deriving DecidableEq

/-- A user preference row (`model.Preference` as read by
`GetUserReadReceiptSettings`). -/
structure Preference where
  category : String
  name : String
  value : String
deriving DecidableEq

/-- The `ServiceSettings` configuration values read by the read-receipt
code. -/
structure Config where
  enableReadReceipts : Bool
  readReceiptsEnableTeamChannels : Bool
  readReceiptsAllowPrivacyDeletion : Bool
  readReceiptsDefaultSetting : String
deriving DecidableEq

/-- The environment of an `App` call: configuration, the surrounding DB
tables / collaborator resolvers (§6 of the spec), the id validator, and the
values produced by `model.GetMillis()` / `model.NewId()` during the call. -/
structure Env where
  config : Config
  posts : List Post
  channels : List Channel
  channelMembers : List ChannelMember
  prefs : String → List Preference
  isValidId : String → Bool
  now : Int
  newId : String

/-! ## Store state -/

/-- The state owned by `SqlPostReadReceiptStore`: the `PostReadReceipts`,
`PostReadReceiptSummary` and `ReadReceiptAuditLog` tables, as lists of rows. -/
structure Store where
  receipts : List PostReadReceipt
  summaries : List PostReadReceiptSummary
  audits : List ReadReceiptAuditLog
deriving DecidableEq

/-- The primary key predicate of `PostReadReceipts`: `(PostId, UserId)`. -/
def keyMatches (postId userId : String) (r : PostReadReceipt) : Bool :=
  r.postId == postId && r.userId == userId

/-- Number of rows with the given primary key. -/
def countKey (t : List PostReadReceipt) (postId userId : String) : Nat :=
  (t.filter (keyMatches postId userId)).length

/-- The column update of `SaveReadReceipt`'s `ON CONFLICT` clause: overwrite
`ReadAt`, `CreateAt`, `DeviceId`, `DeviceType`, `SessionId` (not
`ChannelId`). -/
def applyReceiptUpdate (src dst : PostReadReceipt) : PostReadReceipt :=
  { dst with readAt := src.readAt, createAt := src.createAt, deviceId := src.deviceId,
             deviceType := src.deviceType, sessionId := src.sessionId }

/-- The `INSERT ... ON CONFLICT (PostId, UserId) DO UPDATE` of
`SaveReadReceipt`, on the list-of-rows table. -/
def upsertReceiptRow (t : List PostReadReceipt) (r : PostReadReceipt) :
    List PostReadReceipt :=
  if t.any (keyMatches r.postId r.userId) then
    t.map (fun x => if keyMatches r.postId r.userId x then applyReceiptUpdate r x else x)
  else
    t ++ [r]

/-- `SqlPostReadReceiptStore.SaveReadReceipt`: `PreSave` then upsert; returns
the receipt it persisted. -/
def Store.SaveReadReceipt (now : Int) (st : Store) (receipt : PostReadReceipt) :
    PostReadReceipt × Store :=
  let r := receipt.PreSave now
  (r, { st with receipts := upsertReceiptRow st.receipts r })

/-- The column update of `SaveReadReceiptBatch`'s `ON CONFLICT` clause:
overwrite only `ReadAt` and `CreateAt`. -/
def applyBatchRowUpdate (src dst : PostReadReceipt) : PostReadReceipt :=
  { dst with readAt := src.readAt, createAt := src.createAt }

/-- One row of the multi-row `INSERT ... ON CONFLICT` of
`SaveReadReceiptBatch`. -/
def upsertBatchRow (t : List PostReadReceipt) (r : PostReadReceipt) :
    List PostReadReceipt :=
  if t.any (keyMatches r.postId r.userId) then
    t.map (fun x => if keyMatches r.postId r.userId x then applyBatchRowUpdate r x else x)
  else
    t ++ [r]

/-- The device-type detection inside `SqlPostReadReceiptStore.SaveReadReceiptBatch`
(`strings.Contains` is modelled via `String.splitOn`: a separator occurs in a
string iff splitting on it yields more than one piece). -/
def batchDeviceType (deviceId : String) : String :=
  if deviceId = "" then DeviceTypeWeb
  else if (deviceId.splitOn "mobile").length > 1 then DeviceTypeMobile
  else if (deviceId.splitOn "desktop").length > 1 then DeviceTypeDesktop
  else DeviceTypeWeb

/-- `SqlPostReadReceiptStore.SaveReadReceiptBatch`: one row per entry of
`batch.PostIds`, all with the batch's `UserId`/`ChannelId`/`ReadAt`, a fresh
`CreateAt`, the batch device id/type and an empty session id. -/
def Store.SaveReadReceiptBatch (now : Int) (st : Store) (batch : PostReadReceiptBatch) :
    Store :=
  if batch.postIds.length = 0 then st
  else
    let deviceType := batchDeviceType batch.deviceId
    { st with
      receipts := batch.postIds.foldl (fun t postId =>
        upsertBatchRow t
          { postId := postId, userId := batch.userId, channelId := batch.channelId,
            readAt := batch.readAt, createAt := now, deviceId := batch.deviceId,
            deviceType := deviceType, sessionId := "" }) st.receipts }

/-- `SqlPostReadReceiptStore.GetReadReceipt`; `none` models the
`ErrNotFound` return. -/
def Store.GetReadReceipt (st : Store) (postID userID : String) :
    Option PostReadReceipt :=
  st.receipts.find? (keyMatches postID userID)

/-- Stable insertion into a list sorted descending by `ReadAt`. -/
def insertByReadAtDesc (r : PostReadReceipt) :
    List PostReadReceipt → List PostReadReceipt
  | [] => [r]
  | x :: xs => if x.readAt ≤ r.readAt then r :: x :: xs else x :: insertByReadAtDesc r xs

/-- The `ORDER BY ReadAt DESC` of the receipt queries, as a stable insertion
sort. -/
def sortByReadAtDesc : List PostReadReceipt → List PostReadReceipt
  | [] => []
  | x :: xs => insertByReadAtDesc x (sortByReadAtDesc xs)

/-- `SqlPostReadReceiptStore.GetReadReceiptsForPost`: the post's receipts,
descending by `ReadAt`. -/
def Store.GetReadReceiptsForPost (st : Store) (postID : String) :
    List PostReadReceipt :=
  sortByReadAtDesc (st.receipts.filter (fun r => r.postId == postID))

/-- `SqlPostReadReceiptStore.DeleteReadReceipt`: delete by primary key; no
error when no row matches. -/
def Store.DeleteReadReceipt (st : Store) (postID userID : String) : Store :=
  { st with receipts := st.receipts.filter (fun r => !keyMatches postID userID r) }

/-- `SqlPostReadReceiptStore.SaveReadReceiptAuditLog`: plain append-only
insert. -/
def Store.SaveReadReceiptAuditLog (st : Store) (a : ReadReceiptAuditLog) : Store :=
  { st with audits := st.audits ++ [a] }

/-- `SqlPostReadReceiptStore.GetReadReceiptSummary`; `none` models
`ErrNotFound`. -/
def Store.GetReadReceiptSummary (st : Store) (postID : String) :
    Option PostReadReceiptSummary :=
  st.summaries.find? (fun s => s.postId == postID)

/-- The column update of `UpdateReadReceiptSummary`'s `ON CONFLICT` clause:
overwrite everything except the key and `ChannelId`. -/
def applySummaryUpdate (src dst : PostReadReceiptSummary) : PostReadReceiptSummary :=
  { dst with readCount := src.readCount, totalRecipients := src.totalRecipients,
             lastUpdated := src.lastUpdated, firstReadAt := src.firstReadAt,
             lastReadAt := src.lastReadAt }

/-- `SqlPostReadReceiptStore.UpdateReadReceiptSummary`: upsert keyed on
`PostId`. -/
def Store.UpdateReadReceiptSummary (st : Store) (s : PostReadReceiptSummary) : Store :=
  { st with
    summaries :=
      if st.summaries.any (fun x => x.postId == s.postId) then
        st.summaries.map (fun x => if x.postId == s.postId then applySummaryUpdate s x else x)
      else
        st.summaries ++ [s] }

/-- `SqlPostReadReceiptStore.GetReadReceiptInfo`: receipts for the post, the
post's channel (read from the `Posts` table, here `env.posts`), the channel
member count (from `ChannelMembers`, here `env.channelMembers`), and the
derived aggregate fields.  `none` models the error return when the post row
is absent. -/
def Store.GetReadReceiptInfo (env : Env) (st : Store) (postID : String) :
    Option PostReadReceiptInfo :=
  let receipts := Store.GetReadReceiptsForPost st postID
  match env.posts.find? (fun p => p.id == postID) with
  | none => none
  | some post =>
    let channelId := post.channelId
    let totalUsers : Int :=
      ((env.channelMembers.filter (fun m => m.channelId == channelId)).length : Int)
    let readCount : Int := (receipts.length : Int)
    let lastRead : Int := match receipts.head? with | none => 0 | some r => r.readAt
    let firstRead : Int := match receipts.getLast? with | none => 0 | some r => r.readAt
    some
      { postId := postID, channelId := channelId, readReceipts := receipts,
        unreadUsers := [], totalUsers := totalUsers, readCount := readCount,
        lastRead := lastRead, firstRead := firstRead,
        partiallyRead := decide (0 < readCount ∧ readCount < totalUsers),
        allRead := decide (totalUsers ≤ readCount) }

/-! ## Service layer (channels/app/post_read_receipts.go) -/

def appErr (location id : String) (statusCode : Nat) : AppError :=
  { location := location, id := id, statusCode := statusCode }

/-- Modelled from the spec: the post/channel resolver `getChannel(id) ->
Channel{type}` (§6); `App.GetChannel` is declared outside the provided
sources.  `none` models its `NotFound` error. -/
def getChannel (env : Env) (channelId : String) : Option Channel :=
  env.channels.find? (fun c => c.id == channelId)

/-- Modelled from the spec: the post/channel resolver `getPost(id) ->
Post{channelId}` (§6); `App.GetSinglePost` is declared outside the provided
sources.  `none` models its `NotFound` error. -/
def getSinglePost (env : Env) (postId : String) : Option Post :=
  env.posts.find? (fun p => p.id == postId)

/-- Modelled from the spec: resolution of a batch of post ids, where "posts
that fail to resolve are silently dropped from the batch" (§4.4 markReadBatch
step 5); `App.GetPostsByIds` is declared outside the provided sources.
Returns the stored posts whose id occurs in the requested list. -/
def getPostsByIds (env : Env) (postIds : List String) : List Post :=
  env.posts.filter (fun p => postIds.contains p.id)

/-- Modelled from the spec: the membership resolver `listMembers(channelId)`
(§6), as called by the backfill with page 0 of size 200;
`App.GetChannelMembers` is declared outside the provided sources. -/
def getChannelMembers (env : Env) (channelId : String) : List ChannelMember :=
  (env.channelMembers.filter (fun m => m.channelId == channelId)).take 200

/-- Modelled from the spec: the bounded window of the channel's recent posts
used by the backfill ("most recent N", §4.5), with N = 60 as in the call
`GetPostsForChannel(rctx, channelId, 0, 60)`; `App.GetPostsForChannel` is
declared outside the provided sources. -/
def getPostsForChannel (env : Env) (channelId : String) : List Post :=
  (env.posts.filter (fun p => p.channelId == channelId)).take 60

/-- The channel-eligibility computation repeated in the service functions:
DM and GM channels are always allowed; open/private team channels only when
`ReadReceiptsEnableTeamChannels` is set. -/
def allowedChannelTypeFor (cfg : Config) (t : ChannelType) : Bool :=
  let allowed := t == ChannelType.direct || t == ChannelType.group
  if !allowed && cfg.readReceiptsEnableTeamChannels then
    t == ChannelType.openChannel || t == ChannelType.privateChannel
  else
    allowed

/-- `model.UserReadReceiptSettings`. -/
structure UserReadReceiptSettings where
  receiptMode : String
  showOthersReceipts : String
deriving DecidableEq

/-- `App.GetUserReadReceiptSettings`: defaults from the configuration,
overridden by the user's `read_receipts` preferences in order. -/
def GetUserReadReceiptSettings (env : Env) (userId : String) :
    UserReadReceiptSettings :=
  (env.prefs userId).foldl
    (fun s p =>
      if p.category == PreferenceCategoryReadReceipts then
        if p.name == "receipt_mode" then { s with receiptMode := p.value }
        else if p.name == "show_others_receipts" then { s with showOthersReceipts := p.value }
        else s
      else s)
    { receiptMode := env.config.readReceiptsDefaultSetting,
      showOthersReceipts := ReadReceiptVisibilityAll }

/-- `App.DetectDeviceType`. -/
def DetectDeviceType (deviceId : String) : String :=
  if deviceId = "" then DeviceTypeUnknown else DeviceTypeWeb

/-- `App.SaveReadReceiptForPost`.  The websocket publication and the
goroutine launching the asynchronous summary update have no effect on the
store and are not modelled. -/
def App.SaveReadReceiptForPost (env : Env) (st : Store) (userId postId : String)
    (readAt : Int) (deviceId : String) : Except AppError (PostReadReceipt × Store) :=
  if !env.config.enableReadReceipts then
    .error (appErr "SaveReadReceiptForPost" "app.post.read_receipt.disabled.app_error" 501)
  else
    match getSinglePost env postId with
    | none => .error (appErr "GetSinglePost" "app.post.get.app_error" 404)
    | some post =>
      match getChannel env post.channelId with
      | none => .error (appErr "GetChannel" "app.channel.get.app_error" 404)
      | some channel =>
        if !allowedChannelTypeFor env.config channel.type then
          .error (appErr "SaveReadReceiptForPost" "app.post.read_receipt.channel_type.app_error" 400)
        else
          let userSettings := GetUserReadReceiptSettings env userId
          if userSettings.receiptMode == ReadReceiptModeDisabled then
            .error (appErr "SaveReadReceiptForPost" "app.post.read_receipt.user_disabled.app_error" 403)
          else
            let receipt : PostReadReceipt :=
              { postId := postId, userId := userId, channelId := post.channelId,
                readAt := readAt, createAt := 0, deviceId := deviceId,
                deviceType := DetectDeviceType deviceId, sessionId := "" }
            match receipt.IsValid env.isValidId with
            | some validationErr => .error validationErr
            | none =>
              let saved := Store.SaveReadReceipt env.now st receipt
              .ok saved

/-- The receipt built for one resolved post in `App.SaveReadReceiptBatch`. -/
def mkBatchReceipt (userId : String) (readAt : Int) (deviceId : String) (post : Post) :
    PostReadReceipt :=
  { postId := post.id, userId := userId, channelId := post.channelId,
    readAt := readAt, createAt := 0, deviceId := deviceId,
    deviceType := DetectDeviceType deviceId, sessionId := "" }

/-- The per-post loop of `App.SaveReadReceiptBatch`: the `channelIds` map (the
per-call cache of channels already approved) is the `approved` list; posts in
unresolved or ineligible channels are skipped, and each surviving receipt is
kept only when `IsValid` passes. -/
def validateBatchPosts (env : Env) (userId : String) (readAt : Int) (deviceId : String) :
    List Post → List String → List PostReadReceipt
  | [], _ => []
  | post :: rest, approved =>
    if approved.contains post.channelId then
      let r := mkBatchReceipt userId readAt deviceId post
      (if (r.IsValid env.isValidId).isNone then [r] else []) ++
        validateBatchPosts env userId readAt deviceId rest approved
    else
      match getChannel env post.channelId with
      | none => validateBatchPosts env userId readAt deviceId rest approved
      | some channel =>
        if !allowedChannelTypeFor env.config channel.type then
          validateBatchPosts env userId readAt deviceId rest approved
        else
          let r := mkBatchReceipt userId readAt deviceId post
          (if (r.IsValid env.isValidId).isNone then [r] else []) ++
            validateBatchPosts env userId readAt deviceId rest (post.channelId :: approved)

/-- `App.SaveReadReceiptBatch`.  Note that the store write receives the full
`batch` (all requested post ids) while the returned list is
`validatedReceipts`. -/
def App.SaveReadReceiptBatch (env : Env) (st : Store) (userId : String)
    (batchRequest : ReadReceiptBatchRequest) :
    Except AppError (List PostReadReceipt × Store) :=
  if !env.config.enableReadReceipts then
    .error (appErr "SaveReadReceiptBatch" "app.post.read_receipt.disabled.app_error" 501)
  else
    let userSettings := GetUserReadReceiptSettings env userId
    if userSettings.receiptMode == ReadReceiptModeDisabled then
      .error (appErr "SaveReadReceiptBatch" "app.post.read_receipt.user_disabled.app_error" 403)
    else
      let batch : PostReadReceiptBatch :=
        { postIds := batchRequest.postIds, userId := userId,
          channelId := batchRequest.channelId,
          readAt := if batchRequest.readAt = 0 then env.now else batchRequest.readAt,
          deviceId := batchRequest.deviceId }
      let posts := getPostsByIds env batch.postIds
      let validatedReceipts := validateBatchPosts env userId batch.readAt batch.deviceId posts []
      let st' := Store.SaveReadReceiptBatch env.now st batch
      .ok (validatedReceipts, st')

/-- The privacy-filtering loop of `App.GetReadReceiptInfoForPost`: keep only
the requesting user's own receipts. -/
def filterOwnReceipts (requestingUserId : String) :
    List PostReadReceipt → List PostReadReceipt
  | [] => []
  | r :: rest =>
    if r.userId == requestingUserId then r :: filterOwnReceipts requestingUserId rest
    else filterOwnReceipts requestingUserId rest

/-- `App.GetReadReceiptInfoForPost`. -/
def App.GetReadReceiptInfoForPost (env : Env) (st : Store)
    (postId requestingUserId : String) : Except AppError PostReadReceiptInfo :=
  if !env.config.enableReadReceipts then
    .error (appErr "GetReadReceiptInfoForPost" "app.post.read_receipt.disabled.app_error" 501)
  else
    let userSettings := GetUserReadReceiptSettings env requestingUserId
    match Store.GetReadReceiptInfo env st postId with
    | none => .error (appErr "GetReadReceiptInfoForPost" "app.post.read_receipt.get_info.app_error" 500)
    | some info =>
      if userSettings.showOthersReceipts == ReadReceiptVisibilityNone then
        let filteredReceipts := filterOwnReceipts requestingUserId info.readReceipts
        .ok { info with readReceipts := filteredReceipts,
                        readCount := (filteredReceipts.length : Int) }
      else
        .ok info

/-- `App.DeleteReadReceiptForPost`: delete by key (idempotent at the store),
then append the privacy audit entry. -/
def App.DeleteReadReceiptForPost (env : Env) (st : Store) (userId postId : String) :
    Except AppError Store :=
  if !env.config.enableReadReceipts then
    .error (appErr "DeleteReadReceiptForPost" "app.post.read_receipt.disabled.app_error" 501)
  else if !env.config.readReceiptsAllowPrivacyDeletion then
    .error (appErr "DeleteReadReceiptForPost" "app.post.read_receipt.privacy_deletion_disabled.app_error" 403)
  else
    let st1 := Store.DeleteReadReceipt st postId userId
    let auditEntry : ReadReceiptAuditLog :=
      { id := env.newId, userId := userId, postId := postId,
        action := ReadReceiptActionPrivacyView,
        metadata := [("action", "delete_receipt"), ("reason", "user_privacy_request")],
        createAt := env.now }
    .ok (Store.SaveReadReceiptAuditLog st1 auditEntry)

/-- The body of the goroutine in `App.UpdateReadReceiptSummaryAsync`, modelled
as a synchronous store transformer: fetch the existing summary (return the
store unchanged on `ErrNotFound`), set `LastUpdated` to the current millis,
and upsert it. -/
def App.UpdateReadReceiptSummaryAsync (now : Int) (st : Store) (postId : String) :
    Store :=
  match Store.GetReadReceiptSummary st postId with
  | none => st
  | some summary => Store.UpdateReadReceiptSummary st { summary with lastUpdated := now }

/-- The synthetic receipt built by the backfill for a member/post pair. -/
def mkBackfillReceipt (channelId : String) (m : ChannelMember) (p : Post) :
    PostReadReceipt :=
  { postId := p.id, userId := m.userId, channelId := channelId,
    readAt := m.lastViewedAt, createAt := 0, deviceId := "backfill",
    deviceType := "backfill", sessionId := "" }

/-- The inner post loop of `App.BackfillReadReceiptsForChannel` for one
member: skip members with no last-viewed time, posts newer than the member's
last view, the member's own posts, and pairs that already have a receipt. -/
def backfillCandidatesForMember (st : Store) (channelId : String) (m : ChannelMember)
    (posts : List Post) : List PostReadReceipt :=
  if m.lastViewedAt = 0 then []
  else
    posts.filterMap (fun p =>
      if m.lastViewedAt < p.createAt then none
      else if p.userId = m.userId then none
      else
        match Store.GetReadReceipt st p.id m.userId with
        | some _ => none
        | none => some (mkBackfillReceipt channelId m p))

/-- The member loop of `App.BackfillReadReceiptsForChannel`, accumulating
`receiptsToCreate`. -/
def backfillCandidates (st : Store) (channelId : String) :
    List ChannelMember → List Post → List PostReadReceipt
  | [], _ => []
  | m :: rest, posts =>
    backfillCandidatesForMember st channelId m posts ++
      backfillCandidates st channelId rest posts

/-- `App.BackfillReadReceiptsForChannel`.  The per-receipt store failures
("Failed to save backfill read receipt", logged and skipped) are modelled by
the oracle `saveOk`: a receipt whose save fails leaves the store unchanged
and the loop continues. -/
def App.BackfillReadReceiptsForChannel (env : Env) (saveOk : PostReadReceipt → Bool)
    (st : Store) (channelId : String) : Except AppError Store :=
  if !env.config.enableReadReceipts then
    .error (appErr "BackfillReadReceiptsForChannel" "app.post.read_receipt.disabled.app_error" 501)
  else
    match getChannel env channelId with
    | none => .error (appErr "GetChannel" "app.channel.get.app_error" 404)
    | some channel =>
      if !allowedChannelTypeFor env.config channel.type then
        .error (appErr "BackfillReadReceiptsForChannel" "app.post.read_receipt.channel_type.app_error" 400)
      else
        let members := getChannelMembers env channelId
        let posts := getPostsForChannel env channelId
        let receiptsToCreate := backfillCandidates st channelId members posts
        .ok (receiptsToCreate.foldl
              (fun acc r => if saveOk r then (Store.SaveReadReceipt env.now acc r).2 else acc)
              st)

/-! ## Concrete fixtures used by counterexamples and witnesses -/

/-- The empty store. -/
def st0 : Store := { receipts := [], summaries := [], audits := [] }

/-- A configuration with the feature enabled, team channels disabled and
privacy deletion allowed. -/
def cfgOn : Config :=
  { enableReadReceipts := true, readReceiptsEnableTeamChannels := false,
    readReceiptsAllowPrivacyDeletion := true, readReceiptsDefaultSetting := "enabled" }

/-- An environment with post `P1` in direct-message channel `CH1` (two
members) and post `P2` in public channel `CH2`; user `U1` has default
preferences. -/
def envDM : Env :=
  { config := cfgOn,
    posts := [{ id := "P1", channelId := "CH1", userId := "author1", createAt := 100 },
              { id := "P2", channelId := "CH2", userId := "author1", createAt := 100 }],
    channels := [{ id := "CH1", type := .direct }, { id := "CH2", type := .openChannel }],
    channelMembers := [{ channelId := "CH1", userId := "U1", lastViewedAt := 500 },
                       { channelId := "CH1", userId := "author1", lastViewedAt := 900 }],
    prefs := fun _ => [],
    isValidId := fun s => !(s == ""),
    now := 5000, newId := "AUDIT1" }

/-- A store with two receipts for post `P1` and a stale summary row whose
`readCount` (7) disagrees with the actual receipt count (2). -/
def stTwoReads : Store :=
  { receipts := [{ postId := "P1", userId := "A", channelId := "CH1", readAt := 10,
                   createAt := 10, deviceId := "", deviceType := "web", sessionId := "" },
                 { postId := "P1", userId := "B", channelId := "CH1", readAt := 20,
                   createAt := 20, deviceId := "", deviceType := "web", sessionId := "" }],
    summaries := [{ postId := "P1", channelId := "CH1", readCount := 7, totalRecipients := 5,
                    lastUpdated := 10, firstReadAt := 1, lastReadAt := 2 }],
    audits := [] }

/-- `envDM` with viewer `V` opted into `ShowNone` visibility. -/
def envViewerNone : Env :=
  { envDM with
    prefs := fun u =>
      if u == "V" then
        [{ category := "read_receipts", name := "show_others_receipts", value := "none" }]
      else [] }

/-- The info record `GetReadReceiptInfoForPost` returns for post `P1` on
`envDM`/`stTwoReads` without privacy filtering (receipts ordered by `ReadAt`
descending). -/
def infoP1 : PostReadReceiptInfo :=
  { postId := "P1", channelId := "CH1",
    readReceipts := [{ postId := "P1", userId := "B", channelId := "CH1", readAt := 20,
                       createAt := 20, deviceId := "", deviceType := "web", sessionId := "" },
                     { postId := "P1", userId := "A", channelId := "CH1", readAt := 10,
                       createAt := 10, deviceId := "", deviceType := "web", sessionId := "" }],
    unreadUsers := [], totalUsers := 2, readCount := 2, lastRead := 20, firstRead := 10,
    partiallyRead := false, allRead := true }

/-! ## Table lemmas -/

lemma keyMatches_applyReceiptUpdate (p u : String) (r x : PostReadReceipt) :
    keyMatches p u (applyReceiptUpdate r x) = keyMatches p u x := rfl

lemma keyMatches_self (r : PostReadReceipt) : keyMatches r.postId r.userId r = true := by
  simp [keyMatches]

lemma one_le_countKey_of_any (t : List PostReadReceipt) (p u : String)
    (h : t.any (keyMatches p u) = true) : 1 ≤ countKey t p u := by
  obtain ⟨x, hx, hpx⟩ := List.any_eq_true.1 h
  have hmem : x ∈ t.filter (keyMatches p u) := List.mem_filter.2 ⟨hx, hpx⟩
  have hpos := List.length_pos.2 (List.ne_nil_of_mem hmem)
  simpa [countKey] using hpos

/-- After an upsert, the table holds exactly one row for the upserted key
(provided the table respected the key's uniqueness before). -/
lemma countKey_upsertReceiptRow (t : List PostReadReceipt) (r : PostReadReceipt)
    (h : countKey t r.postId r.userId ≤ 1) :
    countKey (upsertReceiptRow t r) r.postId r.userId = 1 := by
  unfold upsertReceiptRow
  by_cases hany : t.any (keyMatches r.postId r.userId) = true
  · rw [if_pos hany]
    have hmap :
        countKey
          (t.map (fun x => if keyMatches r.postId r.userId x then applyReceiptUpdate r x else x))
          r.postId r.userId = countKey t r.postId r.userId := by
      unfold countKey
      rw [List.filter_map, List.length_map]
      congr 1
      apply List.filter_congr
      intro x _
      cases hx : keyMatches r.postId r.userId x <;>
        simp [Function.comp, hx, keyMatches_applyReceiptUpdate]
    have h1 := one_le_countKey_of_any t r.postId r.userId hany
    omega
  · rw [if_neg hany]
    unfold countKey
    rw [List.filter_append]
    have ht : t.filter (keyMatches r.postId r.userId) = [] := by
      apply List.filter_eq_nil_iff.2
      intro a ha hpa
      exact hany (List.any_eq_true.2 ⟨a, ha, hpa⟩)
    simp [ht, keyMatches_self]

/-- Every row matching the upserted key after an upsert carries the upserted
receipt's `ReadAt`, `CreateAt`, `DeviceId`, `DeviceType` and `SessionId`. -/
lemma fields_of_mem_filter_upsertReceiptRow (t : List PostReadReceipt)
    (r x : PostReadReceipt)
    (hx : x ∈ (upsertReceiptRow t r).filter (keyMatches r.postId r.userId)) :
    x.readAt = r.readAt ∧ x.createAt = r.createAt ∧ x.deviceId = r.deviceId ∧
    x.deviceType = r.deviceType ∧ x.sessionId = r.sessionId := by
  unfold upsertReceiptRow at hx
  by_cases hany : t.any (keyMatches r.postId r.userId) = true
  · rw [if_pos hany] at hx
    obtain ⟨hmem, hpx⟩ := List.mem_filter.1 hx
    obtain ⟨y, hy, hgy⟩ := List.mem_map.1 hmem
    by_cases hky : keyMatches r.postId r.userId y = true
    · rw [if_pos hky] at hgy
      subst hgy
      exact ⟨rfl, rfl, rfl, rfl, rfl⟩
    · rw [if_neg hky] at hgy
      subst hgy
      exact absurd hpx hky
  · rw [if_neg hany] at hx
    obtain ⟨hmem, hpx⟩ := List.mem_filter.1 hx
    rcases List.mem_append.1 hmem with hmem | hmem
    · exact absurd (List.any_eq_true.2 ⟨x, hmem, hpx⟩) hany
    · have hxr : x = r := by simpa using hmem
      subst hxr
      exact ⟨rfl, rfl, rfl, rfl, rfl⟩

/-- `countKey_upsertReceiptRow` with the key given by equations, so it can be
applied to a pre-saved receipt whose key equals another receipt's key. -/
lemma countKey_upsertReceiptRow_of_key (t : List PostReadReceipt) (r : PostReadReceipt)
    (p u : String) (hrp : r.postId = p) (hru : r.userId = u)
    (h : countKey t p u ≤ 1) :
    countKey (upsertReceiptRow t r) p u = 1 := by
  subst hrp
  subst hru
  exact countKey_upsertReceiptRow t r h

/-- `fields_of_mem_filter_upsertReceiptRow` with the key given by equations. -/
lemma fields_of_mem_filter_upsertReceiptRow_of_key (t : List PostReadReceipt)
    (r : PostReadReceipt) (p u : String) (x : PostReadReceipt)
    (hrp : r.postId = p) (hru : r.userId = u)
    (hx : x ∈ (upsertReceiptRow t r).filter (keyMatches p u)) :
    x.readAt = r.readAt ∧ x.createAt = r.createAt ∧ x.deviceId = r.deviceId ∧
    x.deviceType = r.deviceType ∧ x.sessionId = r.sessionId := by
  subst hrp
  subst hru
  exact fields_of_mem_filter_upsertReceiptRow t r x hx

/-! ## Claim C2 -/

/-- C2: the store-level upsert is idempotent per `(postId, userId)` key: after
two `SaveReadReceipt` calls with the same key on a table holding at most one
row for that key, exactly one row for the key remains, and it carries the
second call's `ReadAt` (preserved by `PreSave` since it is non-zero) as well
as the second call's persisted `CreateAt` and device/session fields. -/
theorem saveReadReceipt_upsert_idempotent_per_key
    (now1 now2 : Int) (st : Store) (r1 r2 : PostReadReceipt)
    (hp : r2.postId = r1.postId) (hu : r2.userId = r1.userId) (hr : r2.readAt ≠ 0)
    (h1 : countKey st.receipts r1.postId r1.userId ≤ 1) :
    countKey ((Store.SaveReadReceipt now2 (Store.SaveReadReceipt now1 st r1).2 r2).2).receipts
      r1.postId r1.userId = 1 ∧
    ∀ x ∈ ((Store.SaveReadReceipt now2 (Store.SaveReadReceipt now1 st r1).2 r2).2).receipts.filter
        (keyMatches r1.postId r1.userId),
      x.readAt = r2.readAt ∧ x.createAt = (r2.PreSave now2).createAt ∧
      x.deviceId = r2.deviceId ∧ x.deviceType = (r2.PreSave now2).deviceType ∧
      x.sessionId = r2.sessionId := by
  have e1p : (r1.PreSave now1).postId = r1.postId := rfl
  have e1u : (r1.PreSave now1).userId = r1.userId := rfl
  have e2p : (r2.PreSave now2).postId = r1.postId := hp
  have e2u : (r2.PreSave now2).userId = r1.userId := hu
  have hc1 : countKey (upsertReceiptRow st.receipts (r1.PreSave now1)) r1.postId r1.userId = 1 :=
    countKey_upsertReceiptRow_of_key st.receipts (r1.PreSave now1) _ _ e1p e1u h1
  constructor
  · exact countKey_upsertReceiptRow_of_key _ (r2.PreSave now2) _ _ e2p e2u hc1.le
  · intro x hx
    have hfields := fields_of_mem_filter_upsertReceiptRow_of_key _ (r2.PreSave now2) _ _ x
      e2p e2u hx
    have hra : (r2.PreSave now2).readAt = r2.readAt := by
      show (if r2.readAt = 0 then now2 else r2.readAt) = r2.readAt
      rw [if_neg hr]
    exact ⟨hfields.1.trans hra, hfields.2.1, hfields.2.2.1, hfields.2.2.2.1,
      hfields.2.2.2.2⟩

/-- Witness for C2 at a concrete input: two writes for key `("P1", "U1")`
with `readAt` 1000 then 2000 into the empty table. -/
theorem saveReadReceipt_upsert_idempotent_per_key_witness :
    ((⟨"P1", "U1", "CH1", 2000, 77, "d2", "web", "s2"⟩ : PostReadReceipt).postId =
      (⟨"P1", "U1", "CH1", 1000, 66, "d1", "web", "s1"⟩ : PostReadReceipt).postId) ∧
    countKey st0.receipts "P1" "U1" ≤ 1 ∧
    (countKey ((Store.SaveReadReceipt 2 (Store.SaveReadReceipt 1 st0
        ⟨"P1", "U1", "CH1", 1000, 66, "d1", "web", "s1"⟩).2
        ⟨"P1", "U1", "CH1", 2000, 77, "d2", "web", "s2"⟩).2).receipts "P1" "U1" = 1 ∧
      ∀ x ∈ ((Store.SaveReadReceipt 2 (Store.SaveReadReceipt 1 st0
          ⟨"P1", "U1", "CH1", 1000, 66, "d1", "web", "s1"⟩).2
          ⟨"P1", "U1", "CH1", 2000, 77, "d2", "web", "s2"⟩).2).receipts.filter
          (keyMatches "P1" "U1"),
        x.readAt = (2000 : Int) ∧
        x.createAt = ((⟨"P1", "U1", "CH1", 2000, 77, "d2", "web", "s2"⟩ :
            PostReadReceipt).PreSave 2).createAt ∧
        x.deviceId = "d2" ∧
        x.deviceType = ((⟨"P1", "U1", "CH1", 2000, 77, "d2", "web", "s2"⟩ :
            PostReadReceipt).PreSave 2).deviceType ∧
        x.sessionId = "s2") :=
  ⟨rfl, by decide,
    saveReadReceipt_upsert_idempotent_per_key 1 2 st0
      ⟨"P1", "U1", "CH1", 1000, 66, "d1", "web", "s1"⟩
      ⟨"P1", "U1", "CH1", 2000, 77, "d2", "web", "s2"⟩
      rfl rfl (by decide) (by decide)⟩

/-! ## Claim C1 -/

/-- C1: the claim says a `markRead` call with the feature enabled, an
eligible direct-message post and a non-opted-out user succeeds and returns
the persisted receipt.  In the code, `SaveReadReceiptForPost` builds the
receipt with `CreateAt` left zero and calls `IsValid` (which rejects
`CreateAt == 0`) before the store's `PreSave` runs, so such a call is always
rejected with the `create_at` validation error: user `U1`, post `P1` in a
direct channel, `readAt = 1000`. -/
theorem markRead_rejects_valid_request_createAt :
    App.SaveReadReceiptForPost envDM st0 "U1" "P1" 1000 "" =
      .error ⟨"PostReadReceipt.IsValid",
              "model.post_read_receipt.is_valid.create_at.app_error", 400⟩ := by
  rfl

/-! ## Claim C3 -/

/-- C3: the claim says only the surviving receipts are persisted and the
returned list is exactly the persisted set.  In the code,
`SaveReadReceiptBatch` hands the store the full `batch` (every requested
post id) while returning `validatedReceipts`: a request for `P1` (eligible
direct channel) and `P2` (ineligible public channel, dropped from the
validated list) still persists one row for each of `P1` and `P2`, and the
returned list is empty (each validated receipt also fails `IsValid` because
`CreateAt` is zero at validation time). -/
theorem saveReadReceiptBatch_persists_dropped_postIds :
    (App.SaveReadReceiptBatch envDM st0 "U1"
        { postIds := ["P1", "P2"], channelId := "CH1", readAt := 1000, deviceId := "" }).toOption.map
      (fun x => (x.1.length, countKey x.2.receipts "P1" "U1", countKey x.2.receipts "P2" "U1"))
      = some (0, 1, 1) := by
  rfl

/-! ## Claim C4 -/

/-- C4 counterexample: the claim says `refresh` recomputes `readCount` as the
count of receipts for the post.  On `stTwoReads` (2 receipts for `P1`, stored
summary `readCount = 7`), the summary refresh leaves `readCount = 7` and
`totalRecipients = 5` untouched and only sets `lastUpdated`, so
`readCount ≠ count of receipts`. -/
theorem summaryRefresh_does_not_recompute_readCount :
    ((App.UpdateReadReceiptSummaryAsync 999 stTwoReads "P1").summaries.find?
        (fun s => s.postId == "P1")).map
      (fun s => (s.readCount, s.totalRecipients, s.lastUpdated)) = some (7, 5, 999) ∧
    (stTwoReads.receipts.filter (fun r => r.postId == "P1")).length = 2 := by
  constructor
  · rfl
  · rfl

/-- `find?` through a keyed map-update: updating exactly the rows matching
`p` rewrites the found row by `f`, provided `f` preserves `p`. -/
lemma find?_map_ite {α : Type} (p : α → Bool) (f : α → α) (hpf : ∀ x, p (f x) = p x)
    (t : List α) :
    (t.map (fun x => if p x then f x else x)).find? p = (t.find? p).map f := by
  induction t with
  | nil => rfl
  | cons a t ih =>
    by_cases h : p a = true
    · rw [List.map_cons, if_pos h, List.find?_cons_of_pos _ ((hpf a).trans h),
        List.find?_cons_of_pos _ h]
      rfl
    · rw [List.map_cons, if_neg h, List.find?_cons_of_neg _ h, List.find?_cons_of_neg _ h]
      exact ih

/-- One unfolding step of the summary refresh when the summary row exists:
the refresh maps the keyed update over the summaries table and leaves the
other store components alone. -/
lemma updateSummaryAsync_step (now : Int) (st : Store) (postId : String)
    (s : PostReadReceiptSummary)
    (h : Store.GetReadReceiptSummary st postId = some s) (hspid : s.postId = postId) :
    App.UpdateReadReceiptSummaryAsync now st postId =
      { st with
        summaries := st.summaries.map (fun x =>
          if x.postId == postId then applySummaryUpdate { s with lastUpdated := now } x
          else x) } := by
  have hfind : st.summaries.find? (fun x => x.postId == postId) = some s := h
  have hmem : s ∈ st.summaries := List.mem_of_find?_eq_some hfind
  have hsp := List.find?_some hfind
  simp only [App.UpdateReadReceiptSummaryAsync, h, Store.UpdateReadReceiptSummary]
  rw [if_pos (List.any_eq_true.2 ⟨s, hmem, by simp [hspid]⟩)]
  rw [show ({ s with lastUpdated := now } : PostReadReceiptSummary).postId = postId
    from hspid]

/-- C4 amended: the summary refresh fetches the existing summary row, sets
`LastUpdated` to the current time and upserts it; `readCount`,
`totalRecipients`, `firstReadAt` and `lastReadAt` are carried over unchanged
(nothing is recomputed from the receipts), receipts and audit entries are
untouched, and a repeated refresh with the same clock value is a no-op
(idempotent). -/
theorem summaryRefresh_only_updates_lastUpdated
    (now : Int) (st : Store) (postId : String) (s : PostReadReceiptSummary)
    (h : Store.GetReadReceiptSummary st postId = some s) :
    Store.GetReadReceiptSummary (App.UpdateReadReceiptSummaryAsync now st postId) postId
      = some { s with lastUpdated := now } ∧
    (App.UpdateReadReceiptSummaryAsync now st postId).receipts = st.receipts ∧
    (App.UpdateReadReceiptSummaryAsync now st postId).audits = st.audits ∧
    App.UpdateReadReceiptSummaryAsync now
        (App.UpdateReadReceiptSummaryAsync now st postId) postId
      = App.UpdateReadReceiptSummaryAsync now st postId := by
  have hfind : st.summaries.find? (fun x => x.postId == postId) = some s := h
  have hsp := List.find?_some hfind
  have hspid : s.postId = postId := by simpa using hsp
  have hstep := updateSummaryAsync_step now st postId s h hspid
  have hupd : applySummaryUpdate { s with lastUpdated := now } s =
      { s with lastUpdated := now } := by
    cases s
    rfl
  have hfind1 : Store.GetReadReceiptSummary (App.UpdateReadReceiptSummaryAsync now st postId)
      postId = some { s with lastUpdated := now } := by
    rw [hstep]
    show (st.summaries.map (fun x =>
        if x.postId == postId then applySummaryUpdate { s with lastUpdated := now } x
        else x)).find? (fun x => x.postId == postId) = some { s with lastUpdated := now }
    rw [find?_map_ite (fun x => x.postId == postId)
        (applySummaryUpdate { s with lastUpdated := now }) (fun _ => rfl), hfind,
      Option.map_some', hupd]
  refine ⟨hfind1, by rw [hstep], by rw [hstep], ?_⟩
  have hstep2 := updateSummaryAsync_step now (App.UpdateReadReceiptSummaryAsync now st postId)
    postId { s with lastUpdated := now } hfind1 hspid
  rw [hstep2]
  have hsumm : (App.UpdateReadReceiptSummaryAsync now st postId).summaries.map
      (fun x => if x.postId == postId then
        applySummaryUpdate { { s with lastUpdated := now } with lastUpdated := now } x
      else x) = (App.UpdateReadReceiptSummaryAsync now st postId).summaries := by
    conv_lhs => rw [hstep]
    conv_rhs => rw [hstep]
    show (st.summaries.map _).map _ = _
    rw [List.map_map]
    apply List.map_congr_left
    intro x _
    by_cases hx : (x.postId == postId) = true
    · simp only [Function.comp, if_pos hx]
      rw [if_pos (show ((applySummaryUpdate { s with lastUpdated := now } x).postId == postId)
          = true from hx)]
      rfl
    · simp only [Function.comp, if_neg hx, if_neg hx]
  rw [hsumm]

/-- Witness for C4's amended statement on the `stTwoReads` fixture. -/
theorem summaryRefresh_only_updates_lastUpdated_witness :
    Store.GetReadReceiptSummary stTwoReads "P1" =
      some { postId := "P1", channelId := "CH1", readCount := 7, totalRecipients := 5,
             lastUpdated := 10, firstReadAt := 1, lastReadAt := 2 } ∧
    (Store.GetReadReceiptSummary (App.UpdateReadReceiptSummaryAsync 999 stTwoReads "P1") "P1"
        = some { postId := "P1", channelId := "CH1", readCount := 7, totalRecipients := 5,
                 lastUpdated := 999, firstReadAt := 1, lastReadAt := 2 } ∧
      (App.UpdateReadReceiptSummaryAsync 999 stTwoReads "P1").receipts = stTwoReads.receipts ∧
      (App.UpdateReadReceiptSummaryAsync 999 stTwoReads "P1").audits = stTwoReads.audits ∧
      App.UpdateReadReceiptSummaryAsync 999
          (App.UpdateReadReceiptSummaryAsync 999 stTwoReads "P1") "P1"
        = App.UpdateReadReceiptSummaryAsync 999 stTwoReads "P1") :=
  ⟨by decide,
    summaryRefresh_only_updates_lastUpdated 999 stTwoReads "P1"
      { postId := "P1", channelId := "CH1", readCount := 7, totalRecipients := 5,
        lastUpdated := 10, firstReadAt := 1, lastReadAt := 2 } (by decide)⟩

/-! ## Claim C5 -/

/-- Logical consequences of the two read-flag equations: mutual exclusivity,
and both flags false at zero read count when the channel has members. -/
lemma readFlags_consequences (a b : Int) (ar pr : Bool)
    (hA : ar = decide (b ≤ a)) (hP : pr = decide (0 < a ∧ a < b)) :
    ¬(ar = true ∧ pr = true) ∧ (a = 0 → 0 < b → ar = false ∧ pr = false) := by
  subst hA
  subst hP
  constructor
  · rintro ⟨h1, h2⟩
    have hb1 := of_decide_eq_true h1
    have hb2 := of_decide_eq_true h2
    omega
  · intro h0 hb
    subst h0
    constructor
    · apply decide_eq_false
      omega
    · apply decide_eq_false
      omega

/-- C5 amended: the flag equations `allRead == (readCount >= totalRecipients)`
and `partiallyRead == (0 < readCount < totalRecipients)` hold for the info
returned by `getInfo` whenever the requesting viewer's visibility setting is
not `ShowNone` (so no filtering applies); then the flags are mutually
exclusive, and both are false at `readCount = 0` provided
`totalRecipients > 0`.  Under `ShowNone`, `readCount` is recomputed from the
filtered receipts while `allRead`/`partiallyRead` keep the unfiltered values
and the equations can fail. -/
theorem getInfo_flag_invariant_without_filtering
    (env : Env) (st : Store) (postId viewer : String) (info : PostReadReceiptInfo)
    (hvis : (GetUserReadReceiptSettings env viewer).showOthersReceipts ≠
      ReadReceiptVisibilityNone)
    (hok : App.GetReadReceiptInfoForPost env st postId viewer = .ok info) :
    info.allRead = decide (info.totalUsers ≤ info.readCount) ∧
    info.partiallyRead = decide (0 < info.readCount ∧ info.readCount < info.totalUsers) ∧
    ¬(info.allRead = true ∧ info.partiallyRead = true) ∧
    (info.readCount = 0 → 0 < info.totalUsers →
      info.allRead = false ∧ info.partiallyRead = false) := by
  simp only [App.GetReadReceiptInfoForPost] at hok
  split at hok
  · exact absurd hok (by simp)
  · split at hok
    · exact absurd hok (by simp)
    next i heq =>
      split at hok
      next hcond => exact absurd (by simpa using hcond) hvis
      next =>
        simp only [Except.ok.injEq] at hok
        subst hok
        unfold Store.GetReadReceiptInfo at heq
        dsimp only at heq
        split at heq
        · exact absurd heq (by simp)
        next post hpost =>
          simp only [Option.some.injEq] at heq
          subst heq
          obtain ⟨c1, c2⟩ := readFlags_consequences
            ((Store.GetReadReceiptsForPost st postId).length : Int)
            ((env.channelMembers.filter
              (fun m => m.channelId == post.channelId)).length : Int) _ _ rfl rfl
          exact ⟨rfl, rfl, c1, c2⟩

/-- Witness for C5's amended statement: viewer `U1` (default `ShowAll`
visibility) on post `P1` over `envDM`/`stTwoReads`. -/
theorem getInfo_flag_invariant_without_filtering_witness :
    ((GetUserReadReceiptSettings envDM "U1").showOthersReceipts ≠
      ReadReceiptVisibilityNone) ∧
    App.GetReadReceiptInfoForPost envDM stTwoReads "P1" "U1" = .ok infoP1 ∧
    (infoP1.allRead = decide (infoP1.totalUsers ≤ infoP1.readCount) ∧
      infoP1.partiallyRead =
        decide (0 < infoP1.readCount ∧ infoP1.readCount < infoP1.totalUsers) ∧
      ¬(infoP1.allRead = true ∧ infoP1.partiallyRead = true) ∧
      (infoP1.readCount = 0 → 0 < infoP1.totalUsers →
        infoP1.allRead = false ∧ infoP1.partiallyRead = false)) :=
  ⟨by decide, by rfl,
    getInfo_flag_invariant_without_filtering envDM stTwoReads "P1" "U1" infoP1
      (by decide) (by rfl)⟩

/-- C5 counterexample: the claim says the flag equations hold for every
`ReceiptInfo` returned by `getInfo`, including after privacy filtering.  For
viewer `V` (ShowNone, no own receipt) on post `P1` with 2 receipts and 2
channel members, the returned info has `readCount = 0` and
`totalRecipients = 2` yet `allRead = true`, violating
`allRead == (readCount >= totalRecipients)`. -/
theorem getInfo_invariant_fails_after_showNone_filter :
    (App.GetReadReceiptInfoForPost envViewerNone stTwoReads "P1" "V").toOption.map
      (fun i => (i.readCount, i.totalUsers, i.allRead, i.partiallyRead))
      = some (0, 2, true, false) := by
  rfl

/-! ## Claim C6 -/

/-- The privacy-filtering loop is list filtering by owner. -/
lemma filterOwnReceipts_eq_filter (v : String) (rs : List PostReadReceipt) :
    filterOwnReceipts v rs = rs.filter (fun r => r.userId == v) := by
  induction rs with
  | nil => rfl
  | cons r rest ih =>
    by_cases h : (r.userId == v) = true
    · simp [filterOwnReceipts, h, ih, List.filter_cons]
    · simp [filterOwnReceipts, h, ih, List.filter_cons]

/-- C6: the `ShowNone` privacy filter, applied to any receipt list, retains
exactly the receipts whose `userId` equals the viewer's id; on a receipt set
with pairwise-distinct users (as a per-post receipt set is, the key being
`(postId, userId)`), the result has 0 or 1 elements.  The filter is a pure
function of its input list. -/
theorem showNone_filter_retains_exactly_viewer_receipts (viewer : String)
    (rs : List PostReadReceipt) :
    (∀ x, x ∈ filterOwnReceipts viewer rs ↔ x ∈ rs ∧ x.userId = viewer) ∧
    (rs.Pairwise (fun a b => a.userId ≠ b.userId) →
      (filterOwnReceipts viewer rs).length = 0 ∨
      (filterOwnReceipts viewer rs).length = 1) := by
  constructor
  · intro x
    rw [filterOwnReceipts_eq_filter, List.mem_filter]
    exact ⟨fun ⟨h1, h2⟩ => ⟨h1, by simpa using h2⟩,
      fun ⟨h1, h2⟩ => ⟨h1, by simpa using h2⟩⟩
  · intro hpw
    induction rs with
    | nil => exact Or.inl rfl
    | cons r rest ih =>
      obtain ⟨hr, hrest⟩ := List.pairwise_cons.1 hpw
      by_cases h : (r.userId == viewer) = true
      · refine Or.inr ?_
        have hv : r.userId = viewer := by simpa using h
        have hnil : filterOwnReceipts viewer rest = [] := by
          rw [filterOwnReceipts_eq_filter]
          apply List.filter_eq_nil_iff.2
          intro b hb hbv
          have hbv' : b.userId = viewer := by simpa using hbv
          exact hr b hb (hv.trans hbv'.symm)
        simp [filterOwnReceipts, h, hnil]
      · have := ih hrest
        simpa [filterOwnReceipts, h] using this

/-- Witness for C6 on a concrete two-user receipt list with viewer `A`. -/
theorem showNone_filter_retains_exactly_viewer_receipts_witness :
    (∀ x, x ∈ filterOwnReceipts "A" stTwoReads.receipts ↔
      x ∈ stTwoReads.receipts ∧ x.userId = "A") ∧
    (stTwoReads.receipts.Pairwise (fun a b => a.userId ≠ b.userId) →
      (filterOwnReceipts "A" stTwoReads.receipts).length = 0 ∨
      (filterOwnReceipts "A" stTwoReads.receipts).length = 1) :=
  showNone_filter_retains_exactly_viewer_receipts "A" stTwoReads.receipts

/-! ## Claim C7 -/

/-- A row deleted by key is no longer found. -/
lemma find?_of_filter_not_key (t : List PostReadReceipt) (p u : String) :
    (t.filter (fun r => !keyMatches p u r)).find? (keyMatches p u) = none := by
  apply List.find?_eq_none.2
  intro x hx
  have h2 := (List.mem_filter.1 hx).2
  simpa using h2

/-- C7: with the feature enabled and privacy deletion allowed,
`DeleteReadReceiptForPost` succeeds on any store (in particular when no
receipt exists for the key), afterwards no receipt row for `(postId, userId)`
is present, and exactly one audit entry with action `privacy_view` and the
deletion metadata is appended. -/
theorem deleteReceipt_idempotent_removes_row_appends_audit
    (env : Env) (st : Store) (userId postId : String)
    (hen : env.config.enableReadReceipts = true)
    (hallow : env.config.readReceiptsAllowPrivacyDeletion = true) :
    (App.DeleteReadReceiptForPost env st userId postId).isOk = true ∧
    ∀ st', App.DeleteReadReceiptForPost env st userId postId = .ok st' →
      Store.GetReadReceipt st' postId userId = none ∧
      st'.audits = st.audits ++
        [{ id := env.newId, userId := userId, postId := postId,
           action := ReadReceiptActionPrivacyView,
           metadata := [("action", "delete_receipt"), ("reason", "user_privacy_request")],
           createAt := env.now }] := by
  have hres : App.DeleteReadReceiptForPost env st userId postId =
      .ok (Store.SaveReadReceiptAuditLog (Store.DeleteReadReceipt st postId userId)
        { id := env.newId, userId := userId, postId := postId,
          action := ReadReceiptActionPrivacyView,
          metadata := [("action", "delete_receipt"), ("reason", "user_privacy_request")],
          createAt := env.now }) := by
    simp [App.DeleteReadReceiptForPost, hen, hallow]
  refine ⟨by rw [hres]; rfl, ?_⟩
  intro st' h
  rw [hres] at h
  simp only [Except.ok.injEq] at h
  subst h
  exact ⟨find?_of_filter_not_key st.receipts postId userId, rfl⟩

/-- Witness for C7: deleting the nonexistent receipt `("P9", "U9")` from the
empty store of `envDM`. -/
theorem deleteReceipt_idempotent_removes_row_appends_audit_witness :
    envDM.config.enableReadReceipts = true ∧
    envDM.config.readReceiptsAllowPrivacyDeletion = true ∧
    ((App.DeleteReadReceiptForPost envDM st0 "U9" "P9").isOk = true ∧
      ∀ st', App.DeleteReadReceiptForPost envDM st0 "U9" "P9" = .ok st' →
        Store.GetReadReceipt st' "P9" "U9" = none ∧
        st'.audits = st0.audits ++
          [{ id := envDM.newId, userId := "U9", postId := "P9",
             action := ReadReceiptActionPrivacyView,
             metadata := [("action", "delete_receipt"), ("reason", "user_privacy_request")],
             createAt := envDM.now }]) :=
  ⟨rfl, rfl,
    deleteReceipt_idempotent_removes_row_appends_audit envDM st0 "U9" "P9" rfl rfl⟩

/-! ## Claim C8 -/

/-- The per-post batch loop emits at most one receipt per resolved post. -/
lemma length_validateBatchPosts (env : Env) (u : String) (t : Int) (d : String) :
    ∀ (ps : List Post) (ap : List String),
      (validateBatchPosts env u t d ps ap).length ≤ ps.length := by
  intro ps
  induction ps with
  | nil => intro ap; exact Nat.le_refl 0
  | cons post rest ih =>
    intro ap
    unfold validateBatchPosts
    split
    · rw [List.length_append]
      have h1 := ih ap
      have h2 : (if ((mkBatchReceipt u t d post).IsValid env.isValidId).isNone = true
          then [mkBatchReceipt u t d post] else []).length ≤ 1 := by
        split <;> simp
      simp only [List.length_cons]
      omega
    · split
      · exact (ih ap).trans (Nat.le_succ _)
      · split
        · exact (ih ap).trans (Nat.le_succ _)
        · rw [List.length_append]
          have h1 := ih (post.channelId :: ap)
          have h2 : (if ((mkBatchReceipt u t d post).IsValid env.isValidId).isNone = true
              then [mkBatchReceipt u t d post] else []).length ≤ 1 := by
            split <;> simp
          simp only [List.length_cons]
          omega

/-- Every receipt emitted by the batch loop is built from one of the resolved
posts. -/
lemma mem_validateBatchPosts (env : Env) (u : String) (t : Int) (d : String) :
    ∀ (ps : List Post) (ap : List String) (r : PostReadReceipt),
      r ∈ validateBatchPosts env u t d ps ap → ∃ p ∈ ps, r = mkBatchReceipt u t d p := by
  intro ps
  induction ps with
  | nil => intro ap r h; simp [validateBatchPosts] at h
  | cons post rest ih =>
    intro ap r h
    unfold validateBatchPosts at h
    split at h
    · rcases List.mem_append.1 h with h1 | h1
      · split at h1
        · have hr : r = mkBatchReceipt u t d post := by simpa using h1
          exact ⟨post, List.mem_cons_self _ _, hr⟩
        · simp at h1
      · obtain ⟨p, hp, hr⟩ := ih ap r h1
        exact ⟨p, List.mem_cons_of_mem _ hp, hr⟩
    · split at h
      · obtain ⟨p, hp, hr⟩ := ih ap r h
        exact ⟨p, List.mem_cons_of_mem _ hp, hr⟩
      · split at h
        · obtain ⟨p, hp, hr⟩ := ih ap r h
          exact ⟨p, List.mem_cons_of_mem _ hp, hr⟩
        · rcases List.mem_append.1 h with h1 | h1
          · split at h1
            · have hr : r = mkBatchReceipt u t d post := by simpa using h1
              exact ⟨post, List.mem_cons_self _ _, hr⟩
            · simp at h1
          · obtain ⟨p, hp, hr⟩ := ih (post.channelId :: ap) r h1
            exact ⟨p, List.mem_cons_of_mem _ hp, hr⟩

/-- C8: a successful `markReadBatch` returns at most one receipt per
requested post id, every returned receipt's `postId` occurs in the request,
and with the feature enabled and the user not opted out the call never
errors (ineligible posts only shrink the result).  The `Posts` table is
assumed to have pairwise-distinct ids (its primary key). -/
theorem batch_result_bounded_by_request
    (env : Env) (st : Store) (userId : String) (batchRequest : ReadReceiptBatchRequest)
    (hen : env.config.enableReadReceipts = true)
    (hmode : (GetUserReadReceiptSettings env userId).receiptMode ≠ ReadReceiptModeDisabled)
    (hnodup : (env.posts.map Post.id).Nodup) :
    (App.SaveReadReceiptBatch env st userId batchRequest).isOk = true ∧
    ∀ rs st', App.SaveReadReceiptBatch env st userId batchRequest = .ok (rs, st') →
      rs.length ≤ batchRequest.postIds.length ∧
      ∀ r ∈ rs, r.postId ∈ batchRequest.postIds := by
  have hres : App.SaveReadReceiptBatch env st userId batchRequest =
      .ok (validateBatchPosts env userId
            (if batchRequest.readAt = 0 then env.now else batchRequest.readAt)
            batchRequest.deviceId (getPostsByIds env batchRequest.postIds) [],
          Store.SaveReadReceiptBatch env.now st
            { postIds := batchRequest.postIds, userId := userId,
              channelId := batchRequest.channelId,
              readAt := if batchRequest.readAt = 0 then env.now else batchRequest.readAt,
              deviceId := batchRequest.deviceId }) := by
    simp only [App.SaveReadReceiptBatch]
    rw [if_neg (by simp [hen]), if_neg (by simp [beq_eq_false_iff_ne.2 hmode])]
  refine ⟨by rw [hres]; rfl, ?_⟩
  intro rs st' h
  rw [hres] at h
  simp only [Except.ok.injEq, Prod.mk.injEq] at h
  obtain ⟨h1, -⟩ := h
  subst h1
  constructor
  · have hstep := length_validateBatchPosts env userId
      (if batchRequest.readAt = 0 then env.now else batchRequest.readAt)
      batchRequest.deviceId (getPostsByIds env batchRequest.postIds) []
    have hnd : ((env.posts.filter
        (fun p => batchRequest.postIds.contains p.id)).map Post.id).Nodup :=
      List.Nodup.sublist ((List.filter_sublist env.posts).map Post.id) hnodup
    have hsub : ((env.posts.filter
        (fun p => batchRequest.postIds.contains p.id)).map Post.id) ⊆
        batchRequest.postIds := by
      intro i hi
      obtain ⟨p, hp, hpi⟩ := List.mem_map.1 hi
      have hc := (List.mem_filter.1 hp).2
      rw [← hpi]
      simpa using hc
    have hlen := (hnd.subperm hsub).length_le
    rw [List.length_map] at hlen
    exact hstep.trans hlen
  · intro r hr
    obtain ⟨p, hp, hmk⟩ := mem_validateBatchPosts env userId
      (if batchRequest.readAt = 0 then env.now else batchRequest.readAt)
      batchRequest.deviceId (getPostsByIds env batchRequest.postIds) [] r hr
    have hc := (List.mem_filter.1 hp).2
    rw [hmk]
    simpa [mkBatchReceipt] using hc

/-- Witness for C8: the batch of `P1` (eligible) and `P2` (ineligible public
channel) on `envDM`. -/
theorem batch_result_bounded_by_request_witness :
    envDM.config.enableReadReceipts = true ∧
    ((GetUserReadReceiptSettings envDM "U1").receiptMode ≠ ReadReceiptModeDisabled) ∧
    ((envDM.posts.map Post.id).Nodup) ∧
    ((App.SaveReadReceiptBatch envDM st0 "U1"
        { postIds := ["P1", "P2"], channelId := "CH1", readAt := 1000,
          deviceId := "" }).isOk = true ∧
      ∀ rs st', App.SaveReadReceiptBatch envDM st0 "U1"
          { postIds := ["P1", "P2"], channelId := "CH1", readAt := 1000, deviceId := "" }
          = .ok (rs, st') →
        rs.length ≤ (["P1", "P2"] : List String).length ∧
        ∀ r ∈ rs, r.postId ∈ (["P1", "P2"] : List String)) :=
  ⟨rfl, by decide, by decide,
    batch_result_bounded_by_request envDM st0 "U1"
      { postIds := ["P1", "P2"], channelId := "CH1", readAt := 1000, deviceId := "" }
      rfl (by decide) (by decide)⟩

/-! ## Claim C9 -/

/-- Membership in the per-member backfill candidates, unfolded to the four
eligibility conditions. -/
lemma mem_backfillCandidatesForMember (st : Store) (ch : String) (m : ChannelMember)
    (posts : List Post) (r : PostReadReceipt) :
    r ∈ backfillCandidatesForMember st ch m posts ↔
      m.lastViewedAt ≠ 0 ∧ ∃ p ∈ posts, p.createAt ≤ m.lastViewedAt ∧
        p.userId ≠ m.userId ∧ Store.GetReadReceipt st p.id m.userId = none ∧
        r = mkBackfillReceipt ch m p := by
  unfold backfillCandidatesForMember
  by_cases h0 : m.lastViewedAt = 0
  · rw [if_pos h0]
    simp [h0]
  · rw [if_neg h0]
    simp only [List.mem_filterMap]
    constructor
    · rintro ⟨p, hp, hf⟩
      by_cases h1 : m.lastViewedAt < p.createAt
      · rw [if_pos h1] at hf
        cases hf
      · rw [if_neg h1] at hf
        by_cases h2 : p.userId = m.userId
        · rw [if_pos h2] at hf
          cases hf
        · rw [if_neg h2] at hf
          cases hg : Store.GetReadReceipt st p.id m.userId with
          | some x =>
            rw [hg] at hf
            cases hf
          | none =>
            rw [hg] at hf
            have hr : r = mkBackfillReceipt ch m p := by
              simpa using hf.symm
            exact ⟨h0, p, hp, by omega, h2, hg, hr⟩
    · rintro ⟨-, p, hp, hle, hne, hg, rfl⟩
      refine ⟨p, hp, ?_⟩
      rw [if_neg (by omega), if_neg hne, hg]

/-- Membership in the member loop of the backfill. -/
lemma mem_backfillCandidates (st : Store) (ch : String) (posts : List Post)
    (r : PostReadReceipt) :
    ∀ members : List ChannelMember,
      r ∈ backfillCandidates st ch members posts ↔
        ∃ m ∈ members, r ∈ backfillCandidatesForMember st ch m posts := by
  intro members
  induction members with
  | nil => simp [backfillCandidates]
  | cons m rest ih =>
    simp only [backfillCandidates, List.mem_append, ih, List.mem_cons]
    constructor
    · rintro (h | ⟨m', hm', h⟩)
      · exact ⟨m, Or.inl rfl, h⟩
      · exact ⟨m', Or.inr hm', h⟩
    · rintro ⟨m', hm', h⟩
      rcases hm' with rfl | hm'
      · exact Or.inl h
      · exact Or.inr ⟨m', hm', h⟩

/-- A fold that skips elements failing `ok` equals the fold over the
`ok`-filtered list: one failing write does not disturb the others. -/
lemma foldl_saveOk_filter {σ α : Type} (g : σ → α → σ) (ok : α → Bool) :
    ∀ (rs : List α) (st : σ),
      rs.foldl (fun acc r => if ok r then g acc r else acc) st =
        (rs.filter ok).foldl g st := by
  intro rs
  induction rs with
  | nil => intro st; rfl
  | cons r rest ih =>
    intro st
    by_cases h : ok r = true
    · simp [List.foldl_cons, List.filter_cons, h, ih]
    · simp [List.foldl_cons, List.filter_cons, h, ih]

/-- C9: with the feature enabled and the channel eligible, the backfill's
synthesized set contains a receipt (with `readAt = member.lastViewedAt`)
exactly for the pairs of a member with non-zero last-viewed time and a window
post not newer than that time, not authored by the member, and without an
existing receipt; and the call writes exactly the synthesized receipts whose
individual save succeeds, returning success even when some saves fail. -/
theorem backfill_synthesizes_exactly_eligible_pairs
    (env : Env) (saveOk : PostReadReceipt → Bool) (st : Store) (channelId : String)
    (channel : Channel)
    (hen : env.config.enableReadReceipts = true)
    (hch : getChannel env channelId = some channel)
    (helig : allowedChannelTypeFor env.config channel.type = true) :
    (∀ r, r ∈ backfillCandidates st channelId (getChannelMembers env channelId)
        (getPostsForChannel env channelId) ↔
      ∃ m ∈ getChannelMembers env channelId, m.lastViewedAt ≠ 0 ∧
        ∃ p ∈ getPostsForChannel env channelId,
          p.createAt ≤ m.lastViewedAt ∧ p.userId ≠ m.userId ∧
          Store.GetReadReceipt st p.id m.userId = none ∧
          r = mkBackfillReceipt channelId m p) ∧
    App.BackfillReadReceiptsForChannel env saveOk st channelId =
      .ok (((backfillCandidates st channelId (getChannelMembers env channelId)
          (getPostsForChannel env channelId)).filter saveOk).foldl
        (fun acc r => (Store.SaveReadReceipt env.now acc r).2) st) := by
  constructor
  · intro r
    rw [mem_backfillCandidates]
    constructor
    · rintro ⟨m, hm, hr⟩
      exact ⟨m, hm, (mem_backfillCandidatesForMember st channelId m _ r).1 hr⟩
    · rintro ⟨m, hm, hr⟩
      exact ⟨m, hm, (mem_backfillCandidatesForMember st channelId m _ r).2 hr⟩
  · simp only [App.BackfillReadReceiptsForChannel, hch]
    rw [if_neg (by simp [hen]), if_neg (by simp [helig])]
    rw [foldl_saveOk_filter]

/-- Witness for C9: backfill of direct channel `CH1` on `envDM` with the
second synthesized receipt's save failing. -/
theorem backfill_synthesizes_exactly_eligible_pairs_witness :
    envDM.config.enableReadReceipts = true ∧
    getChannel envDM "CH1" = some { id := "CH1", type := .direct } ∧
    allowedChannelTypeFor envDM.config ChannelType.direct = true ∧
    ((∀ r, r ∈ backfillCandidates st0 "CH1" (getChannelMembers envDM "CH1")
        (getPostsForChannel envDM "CH1") ↔
      ∃ m ∈ getChannelMembers envDM "CH1", m.lastViewedAt ≠ 0 ∧
        ∃ p ∈ getPostsForChannel envDM "CH1",
          p.createAt ≤ m.lastViewedAt ∧ p.userId ≠ m.userId ∧
          Store.GetReadReceipt st0 p.id m.userId = none ∧
          r = mkBackfillReceipt "CH1" m p) ∧
    App.BackfillReadReceiptsForChannel envDM (fun r => r.userId == "U1") st0 "CH1" =
      .ok (((backfillCandidates st0 "CH1" (getChannelMembers envDM "CH1")
          (getPostsForChannel envDM "CH1")).filter (fun r => r.userId == "U1")).foldl
        (fun acc r => (Store.SaveReadReceipt envDM.now acc r).2) st0)) :=
  ⟨rfl, rfl, rfl,
    backfill_synthesizes_exactly_eligible_pairs envDM (fun r => r.userId == "U1") st0
      "CH1" { id := "CH1", type := .direct } rfl rfl rfl⟩

/-! ## Claim C10 -/

/-- C10: under `ShowNone` filtering, `getInfo` modifies only the
`ReadReceipts` list (restricted to the viewer's own receipts) and the
`ReadCount` field (its length); `TotalUsers`, `AllRead`, `PartiallyRead`,
`FirstRead`, `LastRead` (and `ChannelId`) keep the values computed from the
unfiltered receipt set. -/
theorem showNone_filter_frame_on_info_fields
    (env : Env) (st : Store) (postId viewer : String) (info0 : PostReadReceiptInfo)
    (hen : env.config.enableReadReceipts = true)
    (hvis : (GetUserReadReceiptSettings env viewer).showOthersReceipts =
      ReadReceiptVisibilityNone)
    (hinfo : Store.GetReadReceiptInfo env st postId = some info0) :
    (App.GetReadReceiptInfoForPost env st postId viewer).isOk = true ∧
    ∀ info, App.GetReadReceiptInfoForPost env st postId viewer = .ok info →
      info.totalUsers = info0.totalUsers ∧ info.allRead = info0.allRead ∧
      info.partiallyRead = info0.partiallyRead ∧ info.firstRead = info0.firstRead ∧
      info.lastRead = info0.lastRead ∧ info.channelId = info0.channelId ∧
      info.readReceipts = filterOwnReceipts viewer info0.readReceipts ∧
      info.readCount = ((filterOwnReceipts viewer info0.readReceipts).length : Int) := by
  have hres : App.GetReadReceiptInfoForPost env st postId viewer =
      .ok { info0 with
            readReceipts := filterOwnReceipts viewer info0.readReceipts,
            readCount := ((filterOwnReceipts viewer info0.readReceipts).length : Int) } := by
    simp only [App.GetReadReceiptInfoForPost, hinfo]
    rw [if_neg (by simp [hen]), if_pos (by simp [hvis])]
  refine ⟨by rw [hres]; rfl, ?_⟩
  intro info h
  rw [hres] at h
  simp only [Except.ok.injEq] at h
  subst h
  exact ⟨rfl, rfl, rfl, rfl, rfl, rfl, rfl, rfl⟩

/-- Witness for C10: viewer `V` with `ShowNone` on post `P1` over
`envViewerNone`/`stTwoReads`, whose unfiltered info is `infoP1`. -/
theorem showNone_filter_frame_on_info_fields_witness :
    envViewerNone.config.enableReadReceipts = true ∧
    (GetUserReadReceiptSettings envViewerNone "V").showOthersReceipts =
      ReadReceiptVisibilityNone ∧
    Store.GetReadReceiptInfo envViewerNone stTwoReads "P1" = some infoP1 ∧
    ((App.GetReadReceiptInfoForPost envViewerNone stTwoReads "P1" "V").isOk = true ∧
      ∀ info, App.GetReadReceiptInfoForPost envViewerNone stTwoReads "P1" "V" = .ok info →
        info.totalUsers = infoP1.totalUsers ∧ info.allRead = infoP1.allRead ∧
        info.partiallyRead = infoP1.partiallyRead ∧ info.firstRead = infoP1.firstRead ∧
        info.lastRead = infoP1.lastRead ∧ info.channelId = infoP1.channelId ∧
        info.readReceipts = filterOwnReceipts "V" infoP1.readReceipts ∧
        info.readCount = ((filterOwnReceipts "V" infoP1.readReceipts).length : Int)) :=
  ⟨rfl, by decide, by decide,
    showNone_filter_frame_on_info_fields envViewerNone stTwoReads "P1" "V" infoP1
      rfl (by decide) (by decide)⟩

end MMRR
